import Mathlib

/-
Verification of the scene-description loading pipeline of bevy_cobweb_ui.

This file shallowly embeds the Rust sources:
  src/loading/cache/constants_buffer.rs   (ConstantsBuffer: scoped constant maps)
  src/loading/caf/data/value/caf_builtin.rs (hex colors and dimension values)
  src/loading/caf/data/defs/caf_data_macro.rs (data macro stubs)
  src/loading/load_ext.rs                 (loadable registration and appliers)
and proves / refutes the specification's claims about them.

Machine integers are modelled as Nat with explicit wrap-around where the Rust
code can overflow; Rust Option/Result become Option/Except; reference-counted
shared maps (Arc) are modelled as a value paired with an abstract pointer id so
that pointer-identity comparison (Arc::as_ptr) is expressible.
-/

deriving instance DecidableEq for Except

namespace CobwebUI

/- ===================== Shared string helpers ===================== -/

/-- Model of Rust str::strip_prefix at the character-list level: succeeds with
the remainder exactly when the first list is an initial segment of the second. -/
def dropPre : List Char → List Char → Option (List Char)
  | [], s => some s
  | _ :: _, [] => none
  | p :: ps, c :: cs => if c = p then dropPre ps cs else none

/-- Model of Rust str::strip_prefix on strings. -/
def stripPre (p s : String) : Option String := (dropPre p.data s.data).map String.mk

/- ===================== constants_buffer.rs ===================== -/

/-- Constant separator token used by constants_buffer.rs. -/
def CONSTANT_SEPARATOR : String := "::"

/-- Model of path_to_string (constants_buffer.rs lines 16-31): skip empty
components and concatenate the rest with the separator between them. -/
def path_to_string (separator : String) (path : List String) : String :=
  match path.filter (fun p => p ≠ "") with
  | [] => ""
  | p :: rest => rest.foldl (fun acc q => acc ++ separator ++ q) p

/-- Model of Arc(ConstantsMap): the underlying map (an association list, the
model of a HashMap from identifier to constant value) together with an abstract
pointer id standing for the Arc allocation, so Arc::as_ptr comparisons are
expressible. Cloning an Arc keeps the same ptr. -/
structure ArcConstantsMap (V : Type) where
  ptr : Nat
  map : List (String × V)
  deriving DecidableEq, Repr

/-- Association-list lookup, the model of HashMap::get. -/
def mapGet {K V : Type} [DecidableEq K] : List (K × V) → K → Option V
  | [], _ => none
  | (k, v) :: rest, q => if k = q then some v else mapGet rest q

/-- Association-list insert-or-replace, the model of HashMap::insert. -/
def mapInsert {K V : Type} [DecidableEq K] : List (K × V) → K → V → List (K × V)
  | [], k, v => [(k, v)]
  | (k0, v0) :: rest, k, v =>
      if k0 = k then (k, v) :: rest else (k0, v0) :: mapInsert rest k v

/-- Association-list key removal, the model of removing an entry/component. -/
def mapRemove {K V : Type} [DecidableEq K] : List (K × V) → K → List (K × V)
  | [], _ => []
  | (k0, v0) :: rest, k => if k0 = k then rest else (k0, v0) :: mapRemove rest k

/-- Model of ConstantsBuffer (constants_buffer.rs lines 43-48): a stack of
(path-prefix, shared constants map) pairs plus the mutable map of the file
currently being collected. The value type is a parameter. -/
structure ConstantsBuffer (V : Type) where
  stack : List (String × ArcConstantsMap V)
  new_file : List (String × V)
  deriving DecidableEq, Repr

namespace ConstantsBuffer

/-- Model of ConstantsBuffer::start_new_file. -/
def start_new_file {V : Type} (buf : ConstantsBuffer V) : ConstantsBuffer V :=
  { buf with new_file := [] }

/-- Model of ConstantsBuffer::end_new_file: freeze new_file into a fresh shared
map (Arc::new, modelled by an externally supplied fresh pointer id) pushed on
the stack with an empty path-prefix. -/
def end_new_file {V : Type} (buf : ConstantsBuffer V) (fresh : Nat) : ConstantsBuffer V :=
  { stack := buf.stack ++ [("", ⟨fresh, buf.new_file⟩)], new_file := [] }

/-- Model of ConstantsBuffer::insert. -/
def insert {V : Type} (buf : ConstantsBuffer V) (name : String) (value : V) : ConstantsBuffer V :=
  { buf with new_file := mapInsert buf.new_file name value }

/-- Lookup of a path in one stack entry, the body of the find_map closure in
ConstantsBuffer::get (constants_buffer.rs lines 74-79): strip the entry's
path-prefix, strip one optional separator, then look up the remainder. -/
def entry_get {V : Type} (path : String) (e : String × ArcConstantsMap V) : Option V :=
  match stripPre e.1 path with
  | none => none
  | some stripped => mapGet e.2.map ((stripPre CONSTANT_SEPARATOR stripped).getD stripped)

/-- Model of ConstantsBuffer::get (constants_buffer.rs lines 70-82): check the
current file's own declarations first, else scan the stack newest-entry-first. -/
def get {V : Type} (buf : ConstantsBuffer V) (path : String) : Option V :=
  match mapGet buf.new_file path with
  | some v => some v
  | none => buf.stack.reverse.findSome? (entry_get path)

/-- The prefix computed for an appended entry in ConstantsBuffer::append:
path_to_string with separator :: over the alias and the old entry prefix. -/
def keyJoin (al p : String) : String := path_to_string CONSTANT_SEPARATOR [al, p]

/-- Removal of the first stack entry matching a (prefix, map-pointer) pair, the
model of position-then-remove in ConstantsBuffer::append (lines 91-96); the
stack is unchanged when no entry matches. -/
def removeFirstEntry {V : Type} (key : String × Nat) :
    List (String × ArcConstantsMap V) → List (String × ArcConstantsMap V)
  | [] => []
  | e :: rest => if e.1 = key.1 ∧ e.2.ptr = key.2 then rest else e :: removeFirstEntry key rest

/-- Model of ConstantsBuffer::append (constants_buffer.rs lines 84-106): first,
for each entry of the appended buffer, remove from the target stack the first
entry with the same computed prefix and the identical shared map; then extend
the stack with the appended entries under the alias-joined prefixes, cloning
the Arcs (same ptr). -/
def append {V : Type} (buf : ConstantsBuffer V) (al : String) (to_append : ConstantsBuffer V) :
    ConstantsBuffer V :=
  let pruned := to_append.stack.foldl
    (fun st e => removeFirstEntry (keyJoin al e.1, e.2.ptr) st) buf.stack
  { buf with stack := pruned ++ to_append.stack.map (fun e => (keyJoin al e.1, e.2)) }

/-- The (prefix, map-identity) pair of a stack entry, the pair compared for the
diamond-import dedup. -/
def keyOf {V : Type} (e : String × ArcConstantsMap V) : String × Nat := (e.1, e.2.ptr)

/-- The entry produced for the target stack from an appended stack entry:
alias-joined prefix, same shared map (same Arc pointer). -/
def mapEntry {V : Type} (al : String) (e : String × ArcConstantsMap V) :
    String × ArcConstantsMap V := (keyJoin al e.1, e.2)

end ConstantsBuffer

/- ===================== caf parser: spans, fill, numbers ===================== -/

/-- Spans are modelled as the remaining text (offset-only views of the source
compare equal exactly when their remaining text is equal, which is what the
claims about spans quantify over). A parse error from the span layer. -/
inductive SpanError
  /-- Error raised inside parse_hex_u32 (nom ErrorKind::IsA). -/
  | hexDigits
  /-- Error raised by span_verify_error. -/
  | verify
  deriving DecidableEq

/-- Modelled from the spec: CafFill (whitespace/comment capture attached to a
syntax node; spec section 3) is not under src/. It is modelled as the captured
text. -/
structure CafFill where
  text : String
  deriving DecidableEq

/-- Whitespace recognized by the modelled fill parser. -/
def isFillChar (c : Char) : Bool := c == ' ' || c == '\n' || c == '\t' || c == '\r'

/-- Modelled from the spec: CafFill::parse (not under src/) captures the
maximal run of leading whitespace and returns it with the remaining span. -/
def CafFill.parse (s : String) : CafFill × String :=
  (⟨⟨s.data.takeWhile isFillChar⟩⟩, ⟨s.data.dropWhile isFillChar⟩)

/-- Modelled from the spec: CafFill::write_to_or_else writes the captured fill
when present and otherwise the given space text (serialization emits its
fill-or-space prefix first; spec section 4.2). -/
def CafFill.write_to_or_else (fill : CafFill) (writer : String) (space : String) : String :=
  if fill.text = "" then writer ++ space else writer ++ fill.text

/-- Decimal value of a digit run. -/
def digitsVal (l : List Char) : Nat := l.foldl (fun acc c => acc * 10 + (c.toNat - '0'.toNat)) 0

/-- Modelled from the spec: CafNumberValue::parse (not under src/) parses a
numeric literal — an optional minus sign, a nonempty run of decimal digits and
an optional dot-separated fraction — returning (number, remaining) as at
caf_builtin.rs line 233. The numeral's exact rational value also stands for
as_f32 (IEEE rounding is not modelled; the claims use only small integers,
which f32 represents exactly). -/
def parseNumber (s : String) : Option (ℚ × String) :=
  let (neg, rest) : Bool × List Char :=
    match s.data with
    | '-' :: r => (true, r)
    | r => (false, r)
  let intDigits := rest.takeWhile Char.isDigit
  if intDigits.isEmpty then none
  else
    let rest2 := rest.drop intDigits.length
    let (fracDigits, rest3) : List Char × List Char :=
      match rest2 with
      | '.' :: r =>
          let fd := r.takeWhile Char.isDigit
          if fd.isEmpty then ([], rest2) else (fd, r.dropWhile Char.isDigit)
      | r => ([], r)
    let mag : ℚ := mkRat
      (Int.ofNat (digitsVal intDigits * 10 ^ fracDigits.length + digitsVal fracDigits))
      (10 ^ fracDigits.length)
    some (if neg then -mag else mag, ⟨rest3⟩)

/-- Modelled from the spec: snake_identifier (not under src/) parses a
snake-case identifier — a maximal nonempty run of lowercase letters, digits and
underscores starting with a lowercase letter — returning it with the remaining
span. -/
def isSnakeChar (c : Char) : Bool := c.isLower || c.isDigit || c == '_'

/-- Modelled from the spec: entry point of snake_identifier. -/
def snakeIdentifier (s : String) : Option (String × String) :=
  match s.data with
  | c :: _ =>
      if c.isLower then
        let run := s.data.takeWhile isSnakeChar
        some (⟨run⟩, ⟨s.data.drop run.length⟩)
      else none
  | [] => none

/- ===================== caf_builtin.rs: hex colors ===================== -/

/-- Characters accepted by parse_hex_u32 (caf_builtin.rs line 45). -/
def isHexChar (c : Char) : Bool := ("0123456789abcdefABCDEF".data).contains c

/-- Rust char::to_digit(16) with the source's unwrap_or(0). -/
def hexDigitVal (c : Char) : Nat :=
  if '0' ≤ c ∧ c ≤ '9' then c.toNat - '0'.toNat
  else if 'a' ≤ c ∧ c ≤ 'f' then c.toNat - 'a'.toNat + 10
  else if 'A' ≤ c ∧ c ≤ 'F' then c.toNat - 'A'.toNat + 10
  else 0

/-- The u32 value accumulated by parse_hex_u32 (caf_builtin.rs lines 57-66):
the k-th byte from the end contributes its digit value shifted left by 4k bits,
which for at most 8 hex digits is the usual positional value (no u32 overflow),
computed here by a left fold. -/
def hexValue (l : List Char) : Nat := l.foldl (fun acc c => acc * 16 + hexDigitVal c) 0

/-- Model of parse_hex_u32 (caf_builtin.rs lines 39-69): split at the first
non-hex character — an error when no hex character leads the input — cap the
parsed digits at 8 characters, and return the remaining span with the value.
All consumed characters are one byte, so character counts model nom's byte
input_len exactly on the consumed portion. -/
def parse_hex_u32 (s : String) : Except SpanError (String × Nat) :=
  let run := s.data.takeWhile isHexChar
  if run.isEmpty then .error .hexDigits
  else
    let parsed := if run.length ≤ 8 then run else run.take 8
    .ok (⟨s.data.drop parsed.length⟩, hexValue parsed)

/-- Channel bytes computed by CafHexColor::try_parse (caf_builtin.rs lines
114-120) from the parsed u32. The source shifts LEFT by 6, 4 and 2 bits
(u32 wrap, modelled by mod 2 to the 32) before truncating to u8 (mod 256);
when only 6 digits are present alpha keeps Srgba::default's 1.0, byte 255. -/
structure HexChannels where
  alphaByte : Nat
  redByte : Nat
  greenByte : Nat
  blueByte : Nat
  deriving DecidableEq

/-- Channel-byte extraction of CafHexColor::try_parse lines 114-120. -/
def hexChannels (len digits : Nat) : HexChannels :=
  { alphaByte := if len = 8 then ((digits <<< 6) % (2 ^ 32)) % 256 else 255
    redByte := ((digits <<< 4) % (2 ^ 32)) % 256
    greenByte := ((digits <<< 2) % (2 ^ 32)) % 256
    blueByte := digits % 256 }

/-- Model of CafHexColor (caf_builtin.rs lines 73-78). Channel floats produced
by parsing are always of the form byte/255 (Srgba::default is white: all
channels 255/255 = 1.0), so a parsed color is represented exactly by its
channel bytes: the float equals 1.0 exactly when the byte is 255, and
serialization's (channel * 255.0) as u8 recovers the byte. -/
structure CafHexColor where
  fill : CafFill
  channels : HexChannels
  deriving DecidableEq

/-- Uppercase hex digit character. -/
def hexDigitChar (n : Nat) : Char := ("0123456789ABCDEF".data).getD n 'X'

/-- Model of write_num_as_hex (caf_builtin.rs lines 30-33): two uppercase hex
digits of a byte. -/
def write_num_as_hex (n : Nat) : String := ⟨[hexDigitChar (n / 16 % 16), hexDigitChar (n % 16)]⟩

namespace CafHexColor

/-- Model of CafHexColor::write_to_with_space (caf_builtin.rs lines 87-98):
fill-or-space, then the # marker, the alpha byte only when alpha is not
exactly 1.0 (byte 255), then red, green, blue. The writer is the string of
bytes written so far. -/
def write_to_with_space (c : CafHexColor) (writer : String) (space : String) : String :=
  let w := c.fill.write_to_or_else writer space
  let w := w ++ "#"
  let w := if c.channels.alphaByte ≠ 255 then w ++ write_num_as_hex c.channels.alphaByte else w
  w ++ write_num_as_hex c.channels.redByte ++ write_num_as_hex c.channels.greenByte
    ++ write_num_as_hex c.channels.blueByte

/-- Model of CafHexColor::write_to. -/
def write_to (c : CafHexColor) (writer : String) : String := c.write_to_with_space writer ""

/-- Body of CafHexColor::try_parse after the # marker matched (caf_builtin.rs
lines 103-123). The source computes len as end_len - start_len with end_len
the REMAINING length after parsing and start_len the length before — the
operands are swapped relative to the consumed-digit count the check intends —
and usize subtraction wraps (release-build semantics), modelled by adding 2 to
the 64 before subtracting and reducing mod 2 to the 64. -/
def hexBody (fill : CafFill) (rest : List Char) :
    Except SpanError (Option CafHexColor × CafFill × String) :=
  match parse_hex_u32 ⟨rest⟩ with
  | .error e => .error e
  | .ok (remaining, digits) =>
      let start_len := rest.length
      let end_len := remaining.length
      let len := (2 ^ 64 + end_len - start_len) % 2 ^ 64
      if len ≠ 8 ∧ len ≠ 6 then .error .verify
      else
        let fr := CafFill.parse remaining
        .ok (some ⟨fill, hexChannels len digits⟩, fr.1, fr.2)

/-- Model of CafHexColor::try_parse (caf_builtin.rs lines 100-124): a no-match
(None, input fill, input span) unless the span starts with the # marker, which
commits the parser to hexBody. -/
def try_parse (fill : CafFill) (content : String) :
    Except SpanError (Option CafHexColor × CafFill × String) :=
  match content.data with
  | '#' :: rest => hexBody fill rest
  | _ => .ok (none, fill, content)

end CafHexColor

/- ===================== caf_builtin.rs: CafBuiltin ===================== -/

/-- Model of bevy Val, the payload carried by the dimension builtin. The
numeric payload is the parsed numeral's exact rational value. -/
inductive Val
  | auto
  | percent (n : ℚ)
  | px (n : ℚ)
  | vw (n : ℚ)
  | vh (n : ℚ)
  | vmin (n : ℚ)
  | vmax (n : ℚ)
  deriving DecidableEq

/-- Model of CafBuiltin (caf_builtin.rs lines 157-168). -/
inductive CafBuiltin
  | color (c : CafHexColor)
  | val (fill : CafFill) (number : Option ℚ) (v : Val)
  deriving DecidableEq

namespace CafBuiltin

/-- The unit-suffix alternation of CafBuiltin::try_parse (caf_builtin.rs lines
235-242): nom tag parsers match the suffix at the START of the remaining span
(trailing input stays in the span), tried in the source's order with the first
match winning. -/
def tryUnit (n : ℚ) (s : String) : Option (Val × String) :=
  if let some r := stripPre "%" s then some (.percent n, r)
  else if let some r := stripPre "px" s then some (.px n, r)
  else if let some r := stripPre "vw" s then some (.vw n, r)
  else if let some r := stripPre "vh" s then some (.vh n, r)
  else if let some r := stripPre "vmin" s then some (.vmin n, r)
  else if let some r := stripPre "vmax" s then some (.vmax n, r)
  else none

/-- The Val-number branch of CafBuiltin::try_parse (caf_builtin.rs lines
232-252): parse a numeral, then a unit suffix; either failure is a no-match
returning the INPUT fill and span. -/
def tryValNumber (fill : CafFill) (content : String) :
    Except SpanError (Option CafBuiltin × CafFill × String) :=
  match parseNumber content with
  | none => .ok (none, fill, content)
  | some (num, remaining) =>
      match tryUnit num remaining with
      | none => .ok (none, fill, content)
      | some (v, remaining2) =>
          let fr := CafFill.parse remaining2
          .ok (some (.val fill (some num) v), fr.1, fr.2)

/-- Model of CafBuiltin::try_parse (caf_builtin.rs lines 216-253): hex color
first (its hard errors propagate; a no-match hands back its returned fill),
then the keyword auto as a full snake identifier, then number-plus-unit. -/
def try_parse (fill : CafFill) (content : String) :
    Except SpanError (Option CafBuiltin × CafFill × String) :=
  match CafHexColor.try_parse fill content with
  | .error e => .error e
  | .ok (some c, next_fill, remaining) => .ok (some (.color c), next_fill, remaining)
  | .ok (none, fill2, _) =>
      match snakeIdentifier content with
      | some (ident, remaining) =>
          if ident = "auto" then
            let fr := CafFill.parse remaining
            .ok (some (.val fill2 none .auto), fr.1, fr.2)
          else tryValNumber fill2 content
      | none => tryValNumber fill2 content

end CafBuiltin

/- ===================== caf_data_macro.rs ===================== -/

/-- Model of CafDataMacroCall (caf_data_macro.rs lines 10-11), a unit struct. -/
inductive CafDataMacroCall
  | mk
  deriving DecidableEq

/-- Model of CafDataMacroCall::write_to_with_space (caf_data_macro.rs lines
20-24): returns Ok(()) writing nothing, so the writer is unchanged. -/
def CafDataMacroCall.write_to_with_space (_c : CafDataMacroCall) (writer : String)
    (_space : String) : String := writer

/-- Model of CafDataMacroCall::write_to (caf_data_macro.rs lines 15-18). -/
def CafDataMacroCall.write_to (c : CafDataMacroCall) (writer : String) : String :=
  c.write_to_with_space writer ""

/-- Model of CafDataMacroCall::try_parse (caf_data_macro.rs lines 26-30): a
TODO stub that never matches, returning the input fill and span unchanged. -/
def CafDataMacroCall.try_parse (fill : CafFill) (content : String) :
    Except SpanError (Option CafDataMacroCall × CafFill × String) :=
  .ok (none, fill, content)

/- ===================== load_ext.rs: registration ===================== -/

/-- Model of the HashMap entry API's or_insert (load_ext.rs lines 21-26, 43-51):
insert only when the key is vacant; an occupied entry keeps its existing value
and the supplied one is dropped. -/
def entryOrInsert {V : Type} (m : List (Nat × V)) (k : Nat) (v : V) : List (Nat × V) :=
  match mapGet m k with
  | some _ => m
  | none => m ++ [(k, v)]

/-- Model of LoaderCallbacks (load_ext.rs lines 153-159): three registries
keyed by TypeId (modelled as Nat). Callbacks are modelled by abstract
identifiers; distinct identifiers stand for distinct function pointers (for
example bundle_loader T versus reactive_loader T for the same T). -/
structure LoaderCallbacks where
  command_callbacks : List (Nat × Nat)
  node_callbacks : List (Nat × Nat)
  revert_callbacks : List (Nat × Nat)
  deriving DecidableEq

/-- Model of register_command_loadable (load_ext.rs lines 15-27), reached from
register_command: warn when the TypeId is already occupied (the Bool records
the warning; the function always returns, so the duplicate is non-fatal), then
entry.or_insert. -/
def register_command_loadable (L : LoaderCallbacks) (tid cb : Nat) : LoaderCallbacks × Bool :=
  let warned := (mapGet L.command_callbacks tid).isSome
  ({ L with command_callbacks := entryOrInsert L.command_callbacks tid cb }, warned)

/-- Model of register_node_loadable (load_ext.rs lines 31-52), reached from
register_bundle, register_reactive and register_instruction with their
respective applier and reverter callbacks: warn when the applier TypeId entry
is occupied, then or_insert the applier and the reverter. -/
def register_node_loadable (L : LoaderCallbacks) (tid cb rev : Nat) : LoaderCallbacks × Bool :=
  let warned := (mapGet L.node_callbacks tid).isSome
  ({ L with
      node_callbacks := entryOrInsert L.node_callbacks tid cb
      revert_callbacks := entryOrInsert L.revert_callbacks tid rev }, warned)

/-- Model of LoaderCallbacks::get_for_command (load_ext.rs lines 163-166). -/
def get_for_command (L : LoaderCallbacks) (tid : Nat) : Option Nat :=
  mapGet L.command_callbacks tid

/-- Model of LoaderCallbacks::get_for_node (load_ext.rs lines 168-171). -/
def get_for_node (L : LoaderCallbacks) (tid : Nat) : Option Nat :=
  mapGet L.node_callbacks tid

/-- Model of LoaderCallbacks::get_for_revert (load_ext.rs lines 173-176). -/
def get_for_revert (L : LoaderCallbacks) (tid : Nat) : Option Nat :=
  mapGet L.revert_callbacks tid

/- ===================== load_ext.rs: appliers and reverters ===================== -/

/-- Model of the Bevy World as the appliers see it: entities carrying
type-keyed component values (entity ids, component type ids and component
values all modelled as Nat), plus the stream of reaction events emitted; the
reactive substrate is an external collaborator per the spec, so an event
records (entity, component type, is-mutation-trigger). -/
structure EcsWorld where
  entities : List (Nat × List (Nat × Nat))
  events : List (Nat × Nat × Bool)
  deriving DecidableEq

/-- Model of World::get_entity_mut's existence check. -/
def getEntity (w : EcsWorld) (e : Nat) : Option (List (Nat × Nat)) := mapGet w.entities e

/-- Model of bundle_loader (load_ext.rs lines 66-76) for bundle type T: a
vanished entity is a no-op, as is a failed get_value (the decoded payload is
passed as an Option); otherwise insert the bundle on the entity. -/
def bundle_loader (T : Nat) (w : EcsWorld) (entity : Nat) (loadable : Option Nat) : EcsWorld :=
  match getEntity w entity with
  | none => w
  | some comps =>
      match loadable with
      | none => w
      | some v => { w with entities := mapInsert w.entities entity (mapInsert comps T v) }

/-- Model of reactive_loader (load_ext.rs lines 81-99) for React T: a vanished
entity or failed get_value is a no-op; an existing React T value is overwritten
followed by a trigger_mutation event (true), otherwise the reactive insert
records an insertion reaction event (false). -/
def reactive_loader (T : Nat) (w : EcsWorld) (entity : Nat) (loadable : Option Nat) : EcsWorld :=
  match getEntity w entity with
  | none => w
  | some comps =>
      match loadable with
      | none => w
      | some v =>
          match mapGet comps T with
          | some _ =>
              { w with
                  entities := mapInsert w.entities entity (mapInsert comps T v)
                  events := w.events ++ [(entity, T, true)] }
          | none =>
              { w with
                  entities := mapInsert w.entities entity (mapInsert comps T v)
                  events := w.events ++ [(entity, T, false)] }

/-- Model of instruction_loader (load_ext.rs lines 104-114): a vanished entity
or failed get_value is a no-op; otherwise the decoded instruction value's apply
runs on the world (Instruction::apply is type-specific, passed as a function of
the decoded value and the entity). -/
def instruction_loader (applyFn : Nat → Nat → EcsWorld → EcsWorld) (w : EcsWorld)
    (entity : Nat) (loadable : Option Nat) : EcsWorld :=
  match getEntity w entity with
  | none => w
  | some _ =>
      match loadable with
      | none => w
      | some v => applyFn v entity w

/-- Model of revert_bundle (load_ext.rs lines 137-141): remove the bundle
component unless the entity vanished. -/
def revert_bundle (T : Nat) (entity : Nat) (w : EcsWorld) : EcsWorld :=
  match getEntity w entity with
  | none => w
  | some comps => { w with entities := mapInsert w.entities entity (mapRemove comps T) }

/-- Model of revert_reactive (load_ext.rs lines 145-149): remove the React T
component unless the entity vanished. -/
def revert_reactive (T : Nat) (entity : Nat) (w : EcsWorld) : EcsWorld :=
  match getEntity w entity with
  | none => w
  | some comps => { w with entities := mapInsert w.entities entity (mapRemove comps T) }

/- ===================== Concrete witness data ===================== -/

/-- Concrete self buffer for the C2 witness: one imported entry. -/
def bufSelfC2 : ConstantsBuffer Nat := ⟨[("b", ⟨1, [("x", 1)]⟩)], []⟩

/-- Concrete appended buffer for the C2 witness: one frozen file map. -/
def bufOtherC2 : ConstantsBuffer Nat := ⟨[("", ⟨7, [("d", 4)]⟩)], []⟩

/- ===================== Helper lemmas ===================== -/

namespace ConstantsBuffer

lemma keyJoin_eq (al p : String) :
    keyJoin al p = if al = "" then p else if p = "" then al else al ++ "::" ++ p := by
  unfold keyJoin path_to_string CONSTANT_SEPARATOR
  by_cases ha : al = "" <;> by_cases hp : p = "" <;> simp [ha, hp]

lemma keyJoin_inj (al : String) : Function.Injective (keyJoin al) := by
  intro p q h
  rw [keyJoin_eq, keyJoin_eq] at h
  by_cases ha : al = ""
  · simpa [ha] using h
  · by_cases hp : p = "" <;> by_cases hq : q = ""
    · rw [hp, hq]
    · exfalso
      simp only [if_neg ha, if_pos hp, if_neg hq] at h
      have hd := congrArg String.data h
      simp only [String.data_append] at hd
      have hl := congrArg List.length hd
      have hsep : ("::" : String).data = [':', ':'] := rfl
      simp [hsep, List.length_append] at hl
    · exfalso
      simp only [if_neg ha, if_neg hp, if_pos hq] at h
      have hd := congrArg String.data h
      simp only [String.data_append] at hd
      have hl := congrArg List.length hd
      have hsep : ("::" : String).data = [':', ':'] := rfl
      simp [hsep, List.length_append] at hl
    · simp only [if_neg ha, if_neg hp, if_neg hq] at h
      have hd := congrArg String.data h
      simp only [String.data_append] at hd
      exact String.ext (List.append_cancel_left hd)

lemma removeFirstEntry_sublist {V : Type} (key : String × Nat)
    (l : List (String × ArcConstantsMap V)) : (removeFirstEntry key l).Sublist l := by
  induction l with
  | nil => exact List.Sublist.refl _
  | cons e rest ih =>
      unfold removeFirstEntry
      by_cases h : e.1 = key.1 ∧ e.2.ptr = key.2
      · simp only [if_pos h]
        exact List.sublist_cons_self e rest
      · simp only [if_neg h]
        exact ih.cons₂ e

lemma foldRemove_sublist {V E : Type} (f : E → String × Nat) (ks : List E)
    (l : List (String × ArcConstantsMap V)) :
    (ks.foldl (fun st e => removeFirstEntry (f e) st) l).Sublist l := by
  induction ks generalizing l with
  | nil => exact List.Sublist.refl _
  | cons e ks ih =>
      simp only [List.foldl_cons]
      exact (ih _).trans (removeFirstEntry_sublist _ _)

lemma not_mem_keys_removeFirstEntry {V : Type} (key : String × Nat)
    (l : List (String × ArcConstantsMap V)) (h : (l.map keyOf).Nodup) :
    key ∉ (removeFirstEntry key l).map keyOf := by
  induction l with
  | nil => simp [removeFirstEntry]
  | cons e rest ih =>
      simp only [List.map_cons, List.nodup_cons] at h
      unfold removeFirstEntry
      by_cases he : e.1 = key.1 ∧ e.2.ptr = key.2
      · simp only [if_pos he]
        have hk : keyOf e = key := by
          simp [keyOf, Prod.ext_iff, he.1, he.2]
        rw [← hk]
        exact h.1
      · simp only [if_neg he, List.map_cons, List.mem_cons, not_or]
        refine ⟨?_, ih h.2⟩
        intro hk
        apply he
        simp only [keyOf, Prod.ext_iff] at hk
        exact ⟨hk.1.symm, hk.2.symm⟩

lemma foldRemove_not_mem {V E : Type} (f : E → String × Nat) (ks : List E) :
    ∀ (l : List (String × ArcConstantsMap V)), (l.map keyOf).Nodup →
    ∀ e ∈ ks, f e ∉ ((ks.foldl (fun st x => removeFirstEntry (f x) st) l).map keyOf) := by
  induction ks with
  | nil =>
      intro l _ e he
      cases he
  | cons x ks ih =>
      intro l hl e he
      simp only [List.foldl_cons]
      have hl' : ((removeFirstEntry (f x) l).map keyOf).Nodup :=
        hl.sublist ((removeFirstEntry_sublist (f x) l).map keyOf)
      rcases List.mem_cons.mp he with rfl | hmem
      · intro hmem2
        have hsub := (foldRemove_sublist f ks (removeFirstEntry (f e) l)).map keyOf
        exact not_mem_keys_removeFirstEntry (f e) l hl (hsub.subset hmem2)
      · exact ih (removeFirstEntry (f x) l) hl' e hmem

lemma append_stack_eq {V : Type} (buf : ConstantsBuffer V) (al : String)
    (other : ConstantsBuffer V) :
    ∃ pruned : List (String × ArcConstantsMap V), pruned.Sublist buf.stack ∧
      (buf.append al other).stack = pruned ++ other.stack.map (mapEntry al) := by
  refine ⟨other.stack.foldl (fun st e => removeFirstEntry (keyJoin al e.1, e.2.ptr) st) buf.stack,
    foldRemove_sublist (fun e => (keyJoin al e.1, e.2.ptr)) other.stack buf.stack, ?_⟩
  rfl

lemma append_keys_nodup {V : Type} (buf other : ConstantsBuffer V) (al : String)
    (hs : (buf.stack.map keyOf).Nodup) (ho : (other.stack.map keyOf).Nodup) :
    ((buf.append al other).stack.map keyOf).Nodup := by
  have hg : Function.Injective (fun k : String × Nat => (keyJoin al k.1, k.2)) := by
    intro a b hab
    obtain ⟨a1, a2⟩ := a
    obtain ⟨b1, b2⟩ := b
    simp only [Prod.mk.injEq] at hab ⊢
    exact ⟨keyJoin_inj al hab.1, hab.2⟩
  have hstack : (buf.append al other).stack =
      (other.stack.foldl (fun st e => removeFirstEntry (keyJoin al e.1, e.2.ptr) st) buf.stack)
        ++ other.stack.map (mapEntry al) := rfl
  rw [hstack, List.map_append, List.nodup_append]
  refine ⟨hs.sublist ((foldRemove_sublist _ _ _).map keyOf), ?_, ?_⟩
  · have hmm : (other.stack.map (mapEntry al)).map keyOf
        = (other.stack.map keyOf).map (fun k => (keyJoin al k.1, k.2)) := by
      simp only [List.map_map]
      rfl
    rw [hmm]
    exact ho.map hg
  · intro k hk1 hk2
    rw [List.map_map] at hk2
    obtain ⟨e, hme, rfl⟩ := List.mem_map.mp hk2
    exact foldRemove_not_mem (fun e => (keyJoin al e.1, e.2.ptr)) other.stack buf.stack hs
      e hme hk1

end ConstantsBuffer

lemma mapGet_append_none {K V : Type} [DecidableEq K] {m : List (K × V)} {k : K}
    (h : mapGet m k = none) (l : List (K × V)) : mapGet (m ++ l) k = mapGet l k := by
  induction m with
  | nil => simp
  | cons e rest ih =>
      obtain ⟨k0, v0⟩ := e
      by_cases hk : k0 = k
      · simp [mapGet, hk] at h
      · simp only [mapGet, hk, if_false, List.cons_append, if_neg hk] at h ⊢
        exact ih h

/- ===================== Parser no-match lemmas ===================== -/

lemma hexBody_no_none (fill : CafFill) (rest : List Char) (f' : CafFill) (s' : String) :
    CafHexColor.hexBody fill rest ≠ .ok (none, f', s') := by
  unfold CafHexColor.hexBody
  cases h : parse_hex_u32 ⟨rest⟩ with
  | error e => simp
  | ok p =>
      obtain ⟨remaining, digits⟩ := p
      simp only
      split
      · simp
      · simp

lemma hex_try_parse_none (fill : CafFill) (content : String) (f' : CafFill) (s' : String)
    (h : CafHexColor.try_parse fill content = .ok (none, f', s')) :
    f' = fill ∧ s' = content := by
  unfold CafHexColor.try_parse at h
  split at h
  · exact absurd h (hexBody_no_none _ _ _ _)
  · simp only [Except.ok.injEq, Prod.mk.injEq] at h
    exact ⟨h.2.1.symm, h.2.2.symm⟩

lemma tryValNumber_none (fill : CafFill) (content : String) (f' : CafFill) (s' : String)
    (h : CafBuiltin.tryValNumber fill content = .ok (none, f', s')) :
    f' = fill ∧ s' = content := by
  unfold CafBuiltin.tryValNumber at h
  split at h
  · simp only [Except.ok.injEq, Prod.mk.injEq] at h
    exact ⟨h.2.1.symm, h.2.2.symm⟩
  · split at h
    · simp only [Except.ok.injEq, Prod.mk.injEq] at h
      exact ⟨h.2.1.symm, h.2.2.symm⟩
    · simp at h

lemma builtin_try_parse_none (fill : CafFill) (content : String) (f' : CafFill) (s' : String)
    (h : CafBuiltin.try_parse fill content = .ok (none, f', s')) :
    f' = fill ∧ s' = content := by
  unfold CafBuiltin.try_parse at h
  split at h
  · simp at h
  · simp at h
  · rename_i fill2 sp hhex
    obtain ⟨hf2, _⟩ := hex_try_parse_none fill content fill2 sp hhex
    subst hf2
    split at h
    · split at h
      · simp at h
      · exact tryValNumber_none _ _ _ _ h
    · exact tryValNumber_none _ _ _ _ h

/- ===================== Claim C1 ===================== -/

/-- Claim C1: ConstantsBuffer::get resolves a lookup path by first checking the
current file's own (new_file) declarations — a name declared in the current
file shadows every imported constant of the same name — and otherwise scans
the import stack newest-entry-first; a stack entry matches only by stripping
that entry's path-prefix and an optional separator, and a path that does not start
with the entry's path-prefix is never found in that entry. In particular a
stack entry with path-prefix b binding x to 1 resolves b::x to 1, and a
new_file binding of x to 2 makes get x return 2 regardless of the stack. -/
theorem claim_C1_constants_get_resolution :
    (∀ (V : Type) (buf : ConstantsBuffer V) (path : String) (v : V),
        mapGet buf.new_file path = some v → buf.get path = some v)
    ∧ (∀ (V : Type) (buf : ConstantsBuffer V) (path : String),
        mapGet buf.new_file path = none →
        buf.get path = buf.stack.reverse.findSome? (ConstantsBuffer.entry_get path))
    ∧ (∀ (V : Type) (path : String) (e : String × ArcConstantsMap V),
        stripPre e.1 path = none → ConstantsBuffer.entry_get path e = none)
    ∧ ConstantsBuffer.get (V := Nat) ⟨[("b", ⟨0, [("x", 1)]⟩)], []⟩ "b::x" = some 1
    ∧ (∀ (stack : List (String × ArcConstantsMap Nat)),
        ConstantsBuffer.get ⟨stack, [("x", 2)]⟩ "x" = some 2) := by
  refine ⟨?_, ?_, ?_, ?_, ?_⟩
  · intro V buf path v h
    simp [ConstantsBuffer.get, h]
  · intro V buf path h
    simp [ConstantsBuffer.get, h]
  · intro V path e h
    simp [ConstantsBuffer.entry_get, h]
  · decide
  · intro stack
    simp [ConstantsBuffer.get, mapGet]

/-- Witness for C1: the theorem applied at a concrete buffer whose new_file
binds x to 2 while an imported map also binds x (to 1): the own declaration
wins. -/
theorem claim_C1_constants_get_resolution_witness :
    mapGet [("x", (2 : Nat))] "x" = some 2 ∧
    ConstantsBuffer.get (V := Nat) ⟨[("b", ⟨0, [("x", 1)]⟩)], [("x", 2)]⟩ "x" = some 2 :=
  ⟨by decide,
    claim_C1_constants_get_resolution.1 Nat ⟨[("b", ⟨0, [("x", 1)]⟩)], [("x", 2)]⟩ "x" 2
      (by decide)⟩

/- ===================== Claim C2 ===================== -/

/-- Claim C2: ConstantsBuffer::append adds, for each entry (p, m) of the
appended buffer's stack in order, the entry (alias joined with p by :: skipping
empty components, m) to the target stack, sharing the same underlying map by
reference; and if neither stack holds two entries with the same
(prefix, map-identity) pair, neither does the stack after append — in
particular appending the same buffer twice under the same alias leaves exactly
one entry per (prefix, map-identity) pair. -/
theorem claim_C2_append_shared_maps_dedup :
    ∀ (V : Type) (self other : ConstantsBuffer V) (al : String),
    (∃ pruned : List (String × ArcConstantsMap V),
        pruned.Sublist self.stack ∧
        (self.append al other).stack = pruned ++ other.stack.map (ConstantsBuffer.mapEntry al))
    ∧ ((self.stack.map ConstantsBuffer.keyOf).Nodup →
        (other.stack.map ConstantsBuffer.keyOf).Nodup →
        ((self.append al other).stack.map ConstantsBuffer.keyOf).Nodup
        ∧ ∀ e ∈ other.stack,
            (((self.append al other).append al other).stack.map ConstantsBuffer.keyOf).countP
              (fun k => decide (k = ConstantsBuffer.keyOf (ConstantsBuffer.mapEntry al e))) = 1) := by
  intro V self other al
  refine ⟨ConstantsBuffer.append_stack_eq self al other, fun hs ho => ⟨?_, ?_⟩⟩
  · exact ConstantsBuffer.append_keys_nodup self other al hs ho
  · intro e he
    have h1 := ConstantsBuffer.append_keys_nodup self other al hs ho
    have h2 := ConstantsBuffer.append_keys_nodup (self.append al other) other al h1 ho
    have hmem : ConstantsBuffer.keyOf (ConstantsBuffer.mapEntry al e) ∈
        (((self.append al other).append al other).stack.map ConstantsBuffer.keyOf) := by
      obtain ⟨pruned, _, hst⟩ :=
        ConstantsBuffer.append_stack_eq (self.append al other) al other
      rw [hst, List.map_append]
      exact List.mem_append_right _
        (List.mem_map_of_mem ConstantsBuffer.keyOf
          (List.mem_map_of_mem (ConstantsBuffer.mapEntry al) he))
    exact List.count_eq_one_of_mem h2 hmem

/-- Witness for C2: the theorem applied to concrete one-entry buffers; the
double append under alias d keeps exactly one (d, map 7) entry. -/
theorem claim_C2_append_shared_maps_dedup_witness :
    (bufSelfC2.stack.map ConstantsBuffer.keyOf).Nodup
    ∧ (bufOtherC2.stack.map ConstantsBuffer.keyOf).Nodup
    ∧ (((bufSelfC2.append "d" bufOtherC2).stack.map ConstantsBuffer.keyOf).Nodup
        ∧ ∀ e ∈ bufOtherC2.stack,
            (((bufSelfC2.append "d" bufOtherC2).append "d" bufOtherC2).stack.map
                ConstantsBuffer.keyOf).countP
              (fun k => decide (k = ConstantsBuffer.keyOf (ConstantsBuffer.mapEntry "d" e))) = 1) :=
  ⟨by decide, by decide,
    (claim_C2_append_shared_maps_dedup Nat bufSelfC2 bufOtherC2 "d").2 (by decide) (by decide)⟩

/- ===================== Claim C8 ===================== -/

/-- Claim C8: a no-match result (Ok with None) from CafBuiltin::try_parse or
CafHexColor::try_parse returns the trailing fill and remaining span
byte-identical to the input fill and span — no input is consumed on a failure
to match. -/
theorem claim_C8_no_match_non_consuming :
    (∀ (fill : CafFill) (content : String) (f' : CafFill) (s' : String),
        CafHexColor.try_parse fill content = .ok (none, f', s') → f' = fill ∧ s' = content)
    ∧ (∀ (fill : CafFill) (content : String) (f' : CafFill) (s' : String),
        CafBuiltin.try_parse fill content = .ok (none, f', s') → f' = fill ∧ s' = content) :=
  ⟨hex_try_parse_none, builtin_try_parse_none⟩

/-- Witness for C8: the builtin parser fails to match zz and hands back the
input fill and span unchanged. -/
theorem claim_C8_no_match_non_consuming_witness :
    CafBuiltin.try_parse ⟨""⟩ "zz" = .ok (none, ⟨""⟩, "zz")
    ∧ ((⟨""⟩ : CafFill) = ⟨""⟩ ∧ "zz" = "zz") :=
  ⟨by decide, claim_C8_no_match_non_consuming.2 ⟨""⟩ "zz" ⟨""⟩ "zz" (by decide)⟩

/- ===================== Claim C3 ===================== -/

/-- Claim C3 records a code bug: the claim states parsing #A1B2C3 yields red
0xA1, green 0xB2, blue 0xC3 (alpha 1.0) and serializes back to #A1B2C3. The
code instead (a) computes len as end_len - start_len with the operands swapped
(wrapping usize subtraction), so the length check rejects every hex literal
with a hard error, and (b) extracts channels with left shifts (a left shift by
4 bits then u8-truncation keeps only low bits) instead of right shifts, so
even with the length fixed the red byte of digits 0xA1B2C3 would be 0x30, not
0xA1. -/
theorem claim_C3_hex_color_roundtrip_code_bug :
    CafHexColor.try_parse ⟨""⟩ "#A1B2C3" = .error .verify
    ∧ (hexChannels 6 0xA1B2C3).redByte = 0x30
    ∧ (hexChannels 6 0xA1B2C3).redByte ≠ 0xA1
    ∧ (hexChannels 6 0xA1B2C3).greenByte = 0x0C
    ∧ (hexChannels 6 0xA1B2C3).blueByte = 0xC3 := by
  refine ⟨by decide, by decide, by decide, by decide, by decide⟩

/- ===================== Claim C4 ===================== -/

/-- Claim C4 records a code bug: the claim states try_parse succeeds exactly on
# followed by 6 or 8 hex digits and hard-errors on other digit counts. Because
the code computes len as end_len - start_len (operands swapped, wrapping usize
subtraction), len is never 6 or 8 once at least one digit was consumed, so
even the valid 8-digit literal #FFA1B2C3 is rejected with a hard error; a span
with no leading # still correctly returns a no-match, and # with no hex digit
errors inside parse_hex_u32. -/
theorem claim_C4_hex_parse_commit_code_bug :
    CafHexColor.try_parse ⟨""⟩ "#FFA1B2C3" = .error .verify
    ∧ CafHexColor.try_parse ⟨""⟩ "#ABC123" = .error .verify
    ∧ CafHexColor.try_parse ⟨""⟩ "#G" = .error .hexDigits
    ∧ CafHexColor.try_parse ⟨""⟩ "nohex" = .ok (none, ⟨""⟩, "nohex") := by
  refine ⟨by decide, by decide, by decide, by decide⟩

/- ===================== Claim C6 ===================== -/

/-- Counterexample for C6: the claim states 50pxx fails to match the px rule;
the code's tag parser matches the px suffix by prefix, so 50pxx parses to
Px(50) with the trailing x left in the remaining span. -/
theorem claim_C6_counterexample_50pxx :
    CafBuiltin.try_parse ⟨""⟩ "50pxx" =
      .ok (some (.val ⟨""⟩ (some 50) (.px 50)), ⟨""⟩, "x") := by
  decide

/-- Amended claim C6: dimension parsing tries the keyword auto (as a complete
snake identifier), then a numeric literal immediately followed by the first
matching unit of %, px, vw, vh, vmin, vmax; auto parses to Val::Auto, 50% to
Percent(50), 12px to Px(12); the unit rule fails exactly when none of the six
unit suffixes starts the post-numeral span (unit suffixes are matched by
prefix, so trailing input such as the second x of 50pxx is left unconsumed for
the caller rather than rejected). -/
theorem claim_C6_dimension_parsing_amended :
    CafBuiltin.try_parse ⟨""⟩ "auto" = .ok (some (.val ⟨""⟩ none .auto), ⟨""⟩, "")
    ∧ CafBuiltin.try_parse ⟨""⟩ "50%" = .ok (some (.val ⟨""⟩ (some 50) (.percent 50)), ⟨""⟩, "")
    ∧ CafBuiltin.try_parse ⟨""⟩ "12px" = .ok (some (.val ⟨""⟩ (some 12) (.px 12)), ⟨""⟩, "")
    ∧ CafBuiltin.try_parse ⟨""⟩ "autox" = .ok (none, ⟨""⟩, "autox")
    ∧ (∀ (n : ℚ) (s : String),
        CafBuiltin.tryUnit n s = none ↔
          stripPre "%" s = none ∧ stripPre "px" s = none ∧ stripPre "vw" s = none
          ∧ stripPre "vh" s = none ∧ stripPre "vmin" s = none ∧ stripPre "vmax" s = none) := by
  refine ⟨by decide, by decide, by decide, by decide, ?_⟩
  intro n s
  unfold CafBuiltin.tryUnit
  cases h1 : stripPre "%" s <;> cases h2 : stripPre "px" s <;> cases h3 : stripPre "vw" s <;>
    cases h4 : stripPre "vh" s <;> cases h5 : stripPre "vmin" s <;>
    cases h6 : stripPre "vmax" s <;> simp [h1, h2, h3, h4, h5, h6]

/-- Witness for the amended C6: the unit alternation applied at a concrete
post-numeral span matched by no unit suffix. -/
theorem claim_C6_dimension_parsing_amended_witness :
    CafBuiltin.tryUnit 50 "zz" = none :=
  (claim_C6_dimension_parsing_amended.2.2.2.2 50 "zz").mpr (by decide)

/- ===================== Claim C10 ===================== -/

/-- Claim C10: CafDataMacroCall::try_parse never matches, returning the input
fill and span unchanged, and its serializers write zero bytes. -/
theorem claim_C10_data_macro_call_inert :
    (∀ (fill : CafFill) (content : String),
        CafDataMacroCall.try_parse fill content = .ok (none, fill, content))
    ∧ (∀ (c : CafDataMacroCall) (writer space : String),
        c.write_to_with_space writer space = writer)
    ∧ (∀ (c : CafDataMacroCall) (writer : String), c.write_to writer = writer) :=
  ⟨fun _ _ => rfl, fun _ _ _ => rfl, fun _ _ => rfl⟩

/- ===================== Claim C7 ===================== -/

/-- Counterexample for C7: the claim states the newest registration wins. On
an empty registry, registering TypeId 0 with applier callback 1 and then again
with applier callback 2 (as happens when two different loadable flavors are
registered for the same type) leaves callback 1 stored — or_insert keeps the
occupied entry — while the second call does warn. -/
theorem claim_C7_counterexample_first_wins :
    get_for_node (register_node_loadable (register_node_loadable ⟨[], [], []⟩ 0 1 10).1 0 2 20).1 0
      = some 1
    ∧ some (1 : Nat) ≠ some 2
    ∧ (register_node_loadable (register_node_loadable ⟨[], [], []⟩ 0 1 10).1 0 2 20).2 = true := by
  refine ⟨by decide, by decide, by decide⟩

/-- Amended claim C7: registering a loadable for an already-registered type
identity logs a warning and is non-fatal, but keeps the ORIGINAL registration:
the stored callback (applier, command or reverter) remains the first one
registered and later callbacks are dropped; a fresh identity stores the
supplied callback without warning. -/
theorem claim_C7_duplicate_registration_amended :
    ∀ (L : LoaderCallbacks) (tid cb rev : Nat),
    (mapGet L.command_callbacks tid = none →
        get_for_command (register_command_loadable L tid cb).1 tid = some cb
        ∧ (register_command_loadable L tid cb).2 = false)
    ∧ (∀ c0, mapGet L.command_callbacks tid = some c0 →
        get_for_command (register_command_loadable L tid cb).1 tid = some c0
        ∧ (register_command_loadable L tid cb).2 = true)
    ∧ (mapGet L.node_callbacks tid = none →
        get_for_node (register_node_loadable L tid cb rev).1 tid = some cb
        ∧ (register_node_loadable L tid cb rev).2 = false)
    ∧ (∀ c0, mapGet L.node_callbacks tid = some c0 →
        get_for_node (register_node_loadable L tid cb rev).1 tid = some c0
        ∧ (register_node_loadable L tid cb rev).2 = true)
    ∧ (∀ r0, mapGet L.revert_callbacks tid = some r0 →
        get_for_revert (register_node_loadable L tid cb rev).1 tid = some r0) := by
  intro L tid cb rev
  refine ⟨fun h => ⟨?_, ?_⟩, fun c0 h => ⟨?_, ?_⟩, fun h => ⟨?_, ?_⟩, fun c0 h => ⟨?_, ?_⟩,
    fun r0 h => ?_⟩
  · simp [get_for_command, register_command_loadable, entryOrInsert, h, mapGet_append_none h,
      mapGet]
  · simp [register_command_loadable, h]
  · simp [get_for_command, register_command_loadable, entryOrInsert, h]
  · simp [register_command_loadable, h]
  · simp [get_for_node, register_node_loadable, entryOrInsert, h, mapGet_append_none h, mapGet]
  · simp [register_node_loadable, h]
  · simp [get_for_node, register_node_loadable, entryOrInsert, h]
  · simp [register_node_loadable, h]
  · simp [get_for_revert, register_node_loadable, entryOrInsert, h]

/-- Witness for the amended C7: a fresh registration on the empty registry
stores the supplied callback without warning. -/
theorem claim_C7_duplicate_registration_amended_witness :
    mapGet (⟨[], [], []⟩ : LoaderCallbacks).command_callbacks 3 = none
    ∧ (get_for_command (register_command_loadable ⟨[], [], []⟩ 3 5).1 3 = some 5
        ∧ (register_command_loadable ⟨[], [], []⟩ 3 5).2 = false) :=
  ⟨by decide, (claim_C7_duplicate_registration_amended ⟨[], [], []⟩ 3 5 0).1 (by decide)⟩

/- ===================== Claim C9 ===================== -/

/-- Claim C9: applying a loadable to an entity that no longer exists
(bundle_loader, reactive_loader, instruction_loader) and reverting one from it
(revert_bundle, revert_reactive) are no-ops returning without error, leaving
the world unchanged. -/
theorem claim_C9_vanished_target_noop :
    ∀ (T : Nat) (w : EcsWorld) (entity : Nat) (loadable : Option Nat)
      (applyFn : Nat → Nat → EcsWorld → EcsWorld),
      getEntity w entity = none →
      bundle_loader T w entity loadable = w
      ∧ reactive_loader T w entity loadable = w
      ∧ instruction_loader applyFn w entity loadable = w
      ∧ revert_bundle T entity w = w
      ∧ revert_reactive T entity w = w := by
  intro T w entity loadable applyFn h
  refine ⟨?_, ?_, ?_, ?_, ?_⟩ <;>
    simp [bundle_loader, reactive_loader, instruction_loader, revert_bundle, revert_reactive, h]

/-- Witness for C9: the appliers and reverters on the empty world and a
nonexistent entity return the world unchanged. -/
theorem claim_C9_vanished_target_noop_witness :
    getEntity ⟨[], []⟩ 0 = none
    ∧ (bundle_loader 1 ⟨[], []⟩ 0 (some 5) = ⟨[], []⟩
        ∧ reactive_loader 1 ⟨[], []⟩ 0 (some 5) = ⟨[], []⟩
        ∧ instruction_loader (fun _ _ w => w) ⟨[], []⟩ 0 (some 5) = ⟨[], []⟩
        ∧ revert_bundle 1 0 ⟨[], []⟩ = ⟨[], []⟩
        ∧ revert_reactive 1 0 ⟨[], []⟩ = ⟨[], []⟩) :=
  ⟨by decide, claim_C9_vanished_target_noop 1 ⟨[], []⟩ 0 (some 5) (fun _ _ w => w) (by decide)⟩

end CobwebUI
